import Mathlib

/-! Verification of the `clubhouse` API client (`src/clubhouse/api.py`).

The Python module is embedded shallowly: the client configuration, the
dispatch helper `_request`, the action helpers (`_create_item`,
`_delete_item`, `_get_item`, `_list_items`, `_update_item`), the
backwards-compatibility verbs (`get`, `post`, `put`, `delete`) and the
milestone facade methods.  The HTTP transport (the `requests` library) is
modelled as a scripted oracle: a list of responses consumed in order, each
exposing the interface the client reads off a response object — the
integer status code, the raw body text, its decoded JSON value, and the
next-page cursor field consulted by the pagination loop.
`Response.raise_for_status` follows the documented `requests` semantics:
it raises `HTTPError` exactly for status codes in `[400, 600)`.
-/

/-- The fixed API host (`ENDPOINT_HOST` in the source). -/
def ENDPOINT_HOST : String := "https://api.clubhouse.io"

/-- The fixed API path piece prepended to request paths (`ENDPOINT_PATH`
in the source). -/
def ENDPOINT_PATH : String := "/api/v3"

/-- JSON values: the universe of payloads and decoded response bodies. -/
inductive Json where
  | null
  | bool (b : Bool)
  | num (n : Int)
  | str (s : String)
  | arr (elems : List Json)
  | obj (fields : List (String × Json))

/-- The slash character stripped from path segments. -/
def slashC : Char := '/'

/-- The double-quote character of JSON string syntax. -/
def quoteC : Char := '"'

/-- The backslash character of JSON escapes. -/
def backslashC : Char := '\\'

/-- Escape one character the way `json.dumps` escapes quotes and
backslashes.  (ASCII-control and non-ASCII escaping is not modelled; no
claim depends on it.) -/
def jsonEscapeChar (c : Char) : String :=
  if c = quoteC then String.mk [backslashC, quoteC]
  else if c = backslashC then String.mk [backslashC, backslashC]
  else String.mk [c]

/-- Escape a whole string for JSON output. -/
def jsonEscape (s : String) : String :=
  String.join (s.data.map jsonEscapeChar)

mutual

/-- Model of `json.dumps` with its default separators `", "` and `": "`;
`json.dumps(None)` is the string `null`. -/
def jsonDumps : Json → String
  | .null => "null"
  | .bool true => "true"
  | .bool false => "false"
  | .num n => toString n
  | .str s => String.mk [quoteC] ++ jsonEscape s ++ String.mk [quoteC]
  | .arr elems => "[" ++ jsonDumpsArr elems ++ "]"
  | .obj fields => "\x7b" ++ jsonDumpsObj fields ++ "\x7d"

/-- Comma-separated serialization of array elements. -/
def jsonDumpsArr : List Json → String
  | [] => ""
  | [x] => jsonDumps x
  | x :: y :: xs => jsonDumps x ++ ", " ++ jsonDumpsArr (y :: xs)

/-- Comma-separated serialization of object fields. -/
def jsonDumpsObj : List (String × Json) → String
  | [] => ""
  | [kv] => String.mk [quoteC] ++ jsonEscape kv.1 ++ String.mk [quoteC] ++ ": " ++ jsonDumps kv.2
  | kv :: kv2 :: kvs =>
      String.mk [quoteC] ++ jsonEscape kv.1 ++ String.mk [quoteC] ++ ": " ++ jsonDumps kv.2
        ++ ", " ++ jsonDumpsObj (kv2 :: kvs)

end

/-- A path segment as passed by callers of the client: the library passes
strings and integer identifiers. -/
inductive Seg where
  | str (s : String)
  | num (n : Int)

/-- Python `str()` on a segment value. -/
def pyStr : Seg → String
  | .str s => s
  | .num n => toString n

/-- The JSON value a segment denotes when the same Python object is bound
to the `data` parameter of `_request` (as the variadic verbs do). -/
def segVal : Seg → Json
  | .str s => .str s
  | .num n => .num n

/-- Python `s.strip("/")`: remove every leading and trailing slash. -/
def stripSlashesL (l : List Char) : List Char :=
  ((l.dropWhile (· = slashC)).reverse.dropWhile (· = slashC)).reverse

/-- One step of `posixpath.join` (the `os.path.join` used on these URL
strings): a component starting with the separator resets the path;
otherwise it is appended, inserting `/` unless the accumulated path is
empty or already ends in `/`. -/
def joinStep (acc b : List Char) : List Char :=
  if b.head? = some slashC then b
  else if acc = [] ∨ acc.getLast? = some slashC then acc ++ b
  else acc ++ slashC :: b

/-- `posixpath.join` folded over the later components. -/
def pathJoinL (a : List Char) (ps : List (List Char)) : List Char :=
  ps.foldl joinStep a

/-- The question-mark character separating the query component. -/
def qmarkC : Char := '?'

/-- The hash character separating the fragment component. -/
def hashC : Char := '#'

/-- The query component `urlparse(url)[4]`: `urllib` splits the fragment
off at the first `#`, then the query off at the first `?` of what is
left of the URL. -/
def urlQueryL (u : List Char) : List Char :=
  match (u.takeWhile (· ≠ hashC)).dropWhile (· ≠ qmarkC) with
  | [] => []
  | _ :: rest => rest

/-- Lines 54-55 of `_request`: prepend `ENDPOINT_PATH` to the segments
unless the first segment already starts with it. -/
def prefixedSegs (s0 : String) (rest : List Seg) : List Seg :=
  if ENDPOINT_PATH.data.isPrefixOf s0.data then Seg.str s0 :: rest
  else Seg.str ENDPOINT_PATH :: Seg.str s0 :: rest

/-- `str(s).strip("/")` applied to one segment. -/
def segPiece (s : Seg) : List Char :=
  stripSlashesL (pyStr s).data

/-- Line 57 of `_request`: the URL before the token query parameter, for
a first segment that is a string. -/
def buildUrlL (s0 : String) (rest : List Seg) : List Char :=
  pathJoinL ENDPOINT_HOST.data ((prefixedSegs s0 rest).map segPiece)

/-- Client configuration: `ClubhouseClient.__init__` stores the API key
and the ignored status code list (`None` becomes `[]`). -/
structure Config where
  api_key : String
  ignored_status_codes : List Nat

/-- A transport response, per the interface the client reads: the integer
status code, the raw text body, its decoded JSON value (`.json()`; `none`
when the body is not decodable), and the next-page cursor field consulted
by the pagination loop. -/
structure Response where
  status_code : Nat
  text : String
  jsonOf : Option Json
  next : Option String

/-- A dispatched HTTP request, as handed to `requests.request`. -/
structure DispatchedRequest where
  method : String
  url : String
  headers : List (String × String)
  body : String

/-- Failure modes of a call, covering the Python exceptions that can
escape: `IndexError` from `segments[0]` on an empty segment tuple,
`AttributeError` from reading a missing attribute or method,
`TypeError` from `list.extend` of a non-iterable, a JSON decode failure,
`HTTPError` from `raise_for_status` (carrying status and body), and
exhaustion of the scripted transport. -/
inductive ClientError where
  | indexError
  | attributeError (attr : String)
  | typeError (msg : String)
  | jsonDecodeError
  | httpError (status : Nat) (body : String)
  | transportError

/-- What `_request` evaluates to on success: the literal empty dict for a
204 status, or the raw response object. -/
inductive RequestResult where
  | emptyMap
  | resp (r : Response)

/-- The observable outcome of a client call: the returned value or the
raised error, the requests dispatched (in order), the error-log lines
emitted, and the transport responses not yet consumed. -/
structure CallOutcome (α : Type) where
  result : Except ClientError α
  sent : List DispatchedRequest
  logs : List String
  remaining : List Response

/-- Replace the carried result, keeping the trace fields. -/
def CallOutcome.withResult {α β : Type} (o : CallOutcome α)
    (r : Except ClientError β) : CallOutcome β :=
  ⟨r, o.sent, o.logs, o.remaining⟩

/-- The `logger.error` line of `_request`. -/
def logLine (r : Response) : String :=
  "Status code: " ++ toString r.status_code ++ ", Content: " ++ r.text

/-- Documented `requests` semantics of `Response.raise_for_status`: it
raises `HTTPError` exactly for client-error (4xx) and server-error (5xx)
status codes. -/
def raiseForStatusRaises (sc : Nat) : Bool :=
  decide (400 ≤ sc) && decide (sc < 600)

/-- The single header dict built by `_request`. -/
def jsonHeaders : List (String × String) := [("Content-Type", "application/json")]

/-- Shallow embedding of `ClubhouseClient._request`.  `data` is the
optional JSON payload (default `None`), `segments` the variadic path
segments, `tr` the scripted transport.  Transport passthrough options
(`**kwargs`) carry no logic and are not modelled.  A non-string first
segment raises `AttributeError` at `segments[0].startswith(...)` before
any URL is constructed; an empty segment tuple raises `IndexError`
there.  After dispatch: if the status code exceeds 299 and is not in the
ignored list, the status and body are logged and `raise_for_status()` is
called (which raises only for 4xx/5xx); a 204 status then returns the
empty dict, and otherwise the raw response is returned. -/
def _request (cfg : Config) (method : String) (data : Option Json)
    (segments : List Seg) (tr : List Response) : CallOutcome RequestResult :=
  match segments with
  | [] => ⟨.error .indexError, [], [], tr⟩
  | .num _ :: _ => ⟨.error (.attributeError ("startswith")), [], [], tr⟩
  | .str s0 :: rest =>
    let url : String := String.mk (buildUrlL s0 rest)
    let sep : String := if urlQueryL url.data = [] then "?" else "&"
    let body : String := jsonDumps (data.getD Json.null)
    let req : DispatchedRequest :=
      ⟨method, url ++ sep ++ ("token=") ++ cfg.api_key, jsonHeaders, body⟩
    match tr with
    | [] => ⟨.error .transportError, [req], [], []⟩
    | r :: trRest =>
      let unignored : Bool :=
        decide (299 < r.status_code) && !(decide (r.status_code ∈ cfg.ignored_status_codes))
      let lg : List String := if unignored then [logLine r] else []
      if unignored && raiseForStatusRaises r.status_code then
        ⟨.error (.httpError r.status_code r.text), [req], lg, trRest⟩
      else if r.status_code = 204 then
        ⟨.ok .emptyMap, [req], lg, trRest⟩
      else
        ⟨.ok (.resp r), [req], lg, trRest⟩

/-- Reading `.json()` off what `_request` returned: an `AttributeError`
on the plain dict, a decode failure when the body is not JSON. -/
def resultJson : RequestResult → Except ClientError Json
  | .emptyMap => .error (.attributeError ("json"))
  | .resp r =>
    match r.jsonOf with
    | some j => .ok j
    | none => .error .jsonDecodeError

/-- Reading `.next` off what `_request` returned: an `AttributeError` on
the plain dict. -/
def resultNext : RequestResult → Except ClientError (Option String)
  | .emptyMap => .error (.attributeError ("next"))
  | .resp r => .ok r.next

/-- Python `items.extend(xs)`: defined when `items` is a list, iterating
a list, a dict (its keys) or a string (its characters); a non-iterable
argument raises `TypeError`, and a non-list `items` has no `extend`. -/
def pyExtend : Json → Json → Except ClientError Json
  | .arr xs, .arr ys => .ok (.arr (xs ++ ys))
  | .arr xs, .obj fields => .ok (.arr (xs ++ fields.map (fun kv => Json.str kv.1)))
  | .arr xs, .str s => .ok (.arr (xs ++ s.data.map (fun c => Json.str (String.mk [c]))))
  | .arr _, _ => .error (.typeError ("extend"))
  | _, _ => .error (.attributeError ("extend"))

/-- `ClubhouseClient._create_item`: POST the payload, then decode the
response body. -/
def _create_item (cfg : Config) (data : Json) (segments : List Seg)
    (tr : List Response) : CallOutcome Json :=
  let o := _request cfg ("post") (some data) segments tr
  match o.result with
  | .error e => o.withResult (.error e)
  | .ok res => o.withResult (resultJson res)

/-- `ClubhouseClient._delete_item`: DELETE with `None` payload; the raw
dispatch result is returned undecoded. -/
def _delete_item (cfg : Config) (segments : List Seg) (tr : List Response) :
    CallOutcome RequestResult :=
  _request cfg ("delete") none segments tr

/-- `ClubhouseClient._get_item`: GET with `None` payload, then decode the
response body. -/
def _get_item (cfg : Config) (segments : List Seg) (tr : List Response) :
    CallOutcome Json :=
  let o := _request cfg ("get") none segments tr
  match o.result with
  | .error e => o.withResult (.error e)
  | .ok res => o.withResult (resultJson res)

/-- The `while result.next:` loop of `_list_items`.  Python truthiness:
`None` and the empty string are falsy.  `fuel` bounds the recursion; the
caller keeps it above the number of unconsumed transport responses and
each iteration consumes one, so the fuel never runs out before the
scripted transport does. -/
def listLoop (cfg : Config) (result : RequestResult) (items : Json)
    (sent : List DispatchedRequest) (logs : List String)
    (tr : List Response) : Nat → CallOutcome Json
  | 0 => ⟨.error .transportError, sent, logs, tr⟩
  | fuel + 1 =>
    match resultNext result with
    | .error e => ⟨.error e, sent, logs, tr⟩
    | .ok none => ⟨.ok items, sent, logs, tr⟩
    | .ok (some c) =>
      if c = "" then ⟨.ok items, sent, logs, tr⟩
      else
        let o := _request cfg ("get") none [Seg.str c] tr
        match o.result with
        | .error e => ⟨.error e, sent ++ o.sent, logs ++ o.logs, o.remaining⟩
        | .ok res2 =>
          match resultJson res2 with
          | .error e => ⟨.error e, sent ++ o.sent, logs ++ o.logs, o.remaining⟩
          | .ok j2 =>
            match pyExtend items j2 with
            | .error e => ⟨.error e, sent ++ o.sent, logs ++ o.logs, o.remaining⟩
            | .ok items2 =>
              listLoop cfg res2 items2 (sent ++ o.sent) (logs ++ o.logs) o.remaining fuel

/-- `ClubhouseClient._list_items`: GET, decode the first page, then
follow the next-page cursor until it is absent or falsy, extending the
accumulated items with each decoded page. -/
def _list_items (cfg : Config) (segments : List Seg) (tr : List Response) :
    CallOutcome Json :=
  let o := _request cfg ("get") none segments tr
  match o.result with
  | .error e => o.withResult (.error e)
  | .ok res =>
    match resultJson res with
    | .error e => o.withResult (.error e)
    | .ok items => listLoop cfg res items o.sent o.logs o.remaining (o.remaining.length + 1)

/-- `ClubhouseClient._update_item`: PUT the payload, then decode the
response body. -/
def _update_item (cfg : Config) (data : Json) (segments : List Seg)
    (tr : List Response) : CallOutcome Json :=
  let o := _request cfg ("put") (some data) segments tr
  match o.result with
  | .error e => o.withResult (.error e)
  | .ok res => o.withResult (resultJson res)

/-- The backwards-compatibility verb `get`: Python evaluates
`self._request("get", *segments, **kwargs)`, so the first variadic
segment is bound to the `data` parameter of `_request` and only the
remaining segments stay path segments. -/
def ClubhouseClient.get (cfg : Config) (segments : List Seg)
    (tr : List Response) : CallOutcome RequestResult :=
  match segments with
  | [] => _request cfg ("get") none [] tr
  | a :: rest => _request cfg ("get") (some (segVal a)) rest tr

/-- The backwards-compatibility verb `post` (same argument shift as
`get`). -/
def ClubhouseClient.post (cfg : Config) (segments : List Seg)
    (tr : List Response) : CallOutcome RequestResult :=
  match segments with
  | [] => _request cfg ("post") none [] tr
  | a :: rest => _request cfg ("post") (some (segVal a)) rest tr

/-- The backwards-compatibility verb `put` (same argument shift as
`get`). -/
def ClubhouseClient.put (cfg : Config) (segments : List Seg)
    (tr : List Response) : CallOutcome RequestResult :=
  match segments with
  | [] => _request cfg ("put") none [] tr
  | a :: rest => _request cfg ("put") (some (segVal a)) rest tr

/-- The backwards-compatibility verb `delete` (same argument shift as
`get`). -/
def ClubhouseClient.delete (cfg : Config) (segments : List Seg)
    (tr : List Response) : CallOutcome RequestResult :=
  match segments with
  | [] => _request cfg ("delete") none [] tr
  | a :: rest => _request cfg ("delete") (some (segVal a)) rest tr

/-- `create_milestone(data)`: POST to `["milestones"]`. -/
def create_milestone (cfg : Config) (data : Json) (tr : List Response) :
    CallOutcome Json :=
  _create_item cfg data [Seg.str ("milestones")] tr

/-- `delete_milestone(id)`: DELETE to `["milestones", id]`. -/
def delete_milestone (cfg : Config) (id : Seg) (tr : List Response) :
    CallOutcome RequestResult :=
  _delete_item cfg [Seg.str ("milestones"), id] tr

/-- `get_milestone(id)`: GET to `["milestones", id]`. -/
def get_milestone (cfg : Config) (id : Seg) (tr : List Response) :
    CallOutcome Json :=
  _get_item cfg [Seg.str ("milestones"), id] tr

/-- `list_milestone_epics(id)`: list `["milestones", id, "epics"]`. -/
def list_milestone_epics (cfg : Config) (id : Seg) (tr : List Response) :
    CallOutcome Json :=
  _list_items cfg [Seg.str ("milestones"), id, Seg.str ("epics")] tr

/-- `list_milestones()`: list `["milestones"]`. -/
def list_milestones (cfg : Config) (tr : List Response) : CallOutcome Json :=
  _list_items cfg [Seg.str ("milestones")] tr

/-- `update_milestone(id, data)`: PUT to `["milestones", id]`. -/
def update_milestone (cfg : Config) (id : Seg) (data : Json)
    (tr : List Response) : CallOutcome Json :=
  _update_item cfg data [Seg.str ("milestones"), id] tr

/-! String-level machinery: occurrence counting and a closed form for the
path join, used to settle the prefix invariant claims. -/

/-- The number of occurrences of `p` in `l`: the number of positions at
which `p` is a prefix of the remaining suffix. -/
def countSubstrL (l p : List Char) : Nat :=
  (List.range (l.length + 1)).countP (fun i => p.isPrefixOf (l.drop i))

/-- A prefix is no longer than the list. -/
lemma isPrefixOf_length_le : ∀ (p l : List Char), p.isPrefixOf l = true →
    p.length ≤ l.length
  | [], _, _ => Nat.zero_le _
  | a :: p, [], h => by simp [List.isPrefixOf] at h
  | a :: p, b :: l, h => by
    simp only [List.isPrefixOf, Bool.and_eq_true] at h
    simpa using isPrefixOf_length_le p l h.2

/-- Appending on the right cannot change prefix-hood of a short pattern. -/
lemma isPrefixOf_append_left : ∀ (p c t : List Char), p.length ≤ c.length →
    p.isPrefixOf (c ++ t) = p.isPrefixOf c
  | [], _, _, _ => by simp [List.isPrefixOf]
  | a :: p, [], t, h => by simp at h
  | a :: p, b :: c, t, h => by
    simp only [List.cons_append, List.isPrefixOf, List.append_eq]
    rw [isPrefixOf_append_left p c t (by simpa using h)]

/-- If a long pattern is a prefix of `c ++ t` then its first `c.length`
characters are exactly `c`. -/
lemma eq_take_of_isPrefixOf_append : ∀ (c p t : List Char),
    p.isPrefixOf (c ++ t) = true → c.length ≤ p.length → p.take c.length = c
  | [], p, t, _, _ => by simp
  | b :: c, [], t, h, hl => by simp at hl
  | b :: c, a :: p, t, h, hl => by
    simp only [List.cons_append, List.isPrefixOf, Bool.and_eq_true, beq_iff_eq] at h
    simp only [List.length_cons, List.take_succ_cons, h.1]
    exact congrArg (b :: ·) (eq_take_of_isPrefixOf_append c p t h.2 (by simpa using hl))

/-- No occurrence of a non-empty pattern fits in the empty string. -/
lemma countSubstrL_nil (p : List Char) (hp : p ≠ []) : countSubstrL [] p = 0 := by
  cases p with
  | nil => exact absurd rfl hp
  | cons a q => simp [countSubstrL, List.isPrefixOf]

/-- Peeling one character off the front of the searched string. -/
lemma countSubstrL_cons (x : Char) (l p : List Char) :
    countSubstrL (x :: l) p =
      (if p.isPrefixOf (x :: l) then 1 else 0) + countSubstrL l p := by
  unfold countSubstrL
  rw [List.length_cons, List.range_succ_eq_map, List.countP_cons, List.countP_map]
  have hfun : ((fun i => p.isPrefixOf ((x :: l).drop i)) ∘ Nat.succ)
      = (fun i => p.isPrefixOf (l.drop i)) := by
    funext i
    simp [Function.comp]
  rw [hfun]
  simp only [List.drop_zero]
  omega

/-- Occurrence counting distributes over append when no occurrence can
span the boundary: no proper non-empty suffix of `c` shorter than the
pattern is a prefix of the pattern. -/
lemma countSubstrL_append : ∀ (c t p : List Char), p ≠ [] →
    (∀ k, k < p.length → 0 < k → p.take k ≠ c.drop (c.length - k)) →
    countSubstrL (c ++ t) p = countSubstrL c p + countSubstrL t p
  | [], t, p, hp, _ => by
    simp [countSubstrL_nil p hp]
  | x :: c, t, p, hp, hnov => by
    have hnov' : ∀ k, k < p.length → 0 < k → p.take k ≠ c.drop (c.length - k) := by
      intro k hk hk0
      by_cases hkc : k ≤ c.length
      · have h1 := hnov k hk hk0
        have h2 : (x :: c).drop ((x :: c).length - k) = c.drop (c.length - k) := by
          have h3 : (x :: c).length - k = (c.length - k) + 1 := by
            simp only [List.length_cons]; omega
          rw [h3, List.drop_succ_cons]
        rw [← h2]
        exact h1
      · intro heq
        have hck : c.length - k = 0 := by omega
        rw [hck, List.drop_zero] at heq
        have h2 : (p.take k).length = c.length := by rw [heq]
        rw [List.length_take] at h2
        omega
    have hite : p.isPrefixOf (x :: (c ++ t)) = p.isPrefixOf (x :: c) := by
      by_cases hl : p.length ≤ (x :: c).length
      · have h := isPrefixOf_append_left p (x :: c) t hl
        simpa using h
      · have hxc : p.isPrefixOf (x :: c) = false := by
          cases hxc2 : p.isPrefixOf (x :: c) with
          | false => rfl
          | true => exact absurd (isPrefixOf_length_le p (x :: c) hxc2) hl
        rw [hxc]
        cases hxt : p.isPrefixOf (x :: (c ++ t)) with
        | false => rfl
        | true =>
          exfalso
          have htake : p.take (x :: c).length = x :: c := by
            apply eq_take_of_isPrefixOf_append (x :: c) p t
            · simpa using hxt
            · omega
          have h3 := hnov (x :: c).length (by omega) (by simp)
          rw [Nat.sub_self, List.drop_zero] at h3
          exact h3 htake
    have hrec := countSubstrL_append c t p hp hnov'
    calc countSubstrL ((x :: c) ++ t) p
        = countSubstrL (x :: (c ++ t)) p := by rw [List.cons_append]
      _ = (if p.isPrefixOf (x :: (c ++ t)) then 1 else 0) + countSubstrL (c ++ t) p :=
          countSubstrL_cons x (c ++ t) p
      _ = (if p.isPrefixOf (x :: c) then 1 else 0) + (countSubstrL c p + countSubstrL t p) := by
          rw [hite, hrec]
      _ = ((if p.isPrefixOf (x :: c) then 1 else 0) + countSubstrL c p) + countSubstrL t p := by
          rw [Nat.add_assoc]
      _ = countSubstrL (x :: c) p + countSubstrL t p := by rw [← countSubstrL_cons]

/-- Whether the joined path ends in a slash after appending a component:
an empty component leaves (or creates) a trailing separator, a non-empty
one ends the path with its own last character. -/
def glueNext (y : List Char) : Bool :=
  if y = [] then true else decide (y.getLast? = some slashC)

/-- The closed form of what `posixpath.join` appends after a non-empty
base: each later component preceded by `/` unless the path already ends
in one (`b` records that state). -/
def glueL : Bool → List (List Char) → List Char
  | _, [] => []
  | b, y :: ys => (if b then y else slashC :: y) ++ glueL (glueNext y) ys

/-- The head of a `dropWhile` result fails the predicate. -/
lemma headq_dropWhile (p : Char → Bool) : ∀ (l : List Char) (a : Char),
    (l.dropWhile p).head? = some a → p a = false
  | [], a, h => by simp [List.dropWhile] at h
  | x :: l, a, h => by
    cases hx : p x with
    | true =>
      simp only [List.dropWhile_cons, hx, if_true] at h
      exact headq_dropWhile p l a h
    | false =>
      simp only [List.dropWhile_cons, hx, Bool.false_eq_true, if_false,
        List.head?_cons, Option.some.injEq] at h
      rw [← h]
      exact hx

/-- A stripped segment never starts with a slash. -/
lemma head_stripSlashesL (l : List Char) : (stripSlashesL l).head? ≠ some slashC := by
  intro h
  unfold stripSlashesL at h
  set m := l.dropWhile (· = slashC) with hm
  set d := m.reverse.dropWhile (· = slashC) with hd
  have hpre : d.reverse <+: m := by
    have h1 : d <:+ m.reverse := List.dropWhile_suffix _
    have h2 : d.reverse <+: m.reverse.reverse := List.reverse_prefix.mpr h1
    rwa [List.reverse_reverse] at h2
  obtain ⟨t, ht⟩ := hpre
  have hne : d.reverse ≠ [] := by
    intro h0
    rw [h0] at h
    simp at h
  have hhm : m.head? = some slashC := by
    rw [← ht, List.head?_append_of_ne_nil d.reverse hne]
    exact h
  have := headq_dropWhile (· = slashC) l slashC hhm
  simp at this

/-- `posixpath.join` of slash-free-headed components onto a non-empty
base appends exactly the `glueL` tail. -/
lemma pathJoinL_glue : ∀ (ys : List (List Char)) (a : List Char), a ≠ [] →
    (∀ y ∈ ys, y.head? ≠ some slashC) →
    pathJoinL a ys = a ++ glueL (decide (a.getLast? = some slashC)) ys
  | [], a, _, _ => by simp [pathJoinL, glueL]
  | y :: ys, a, ha, hhead => by
    have hy : y.head? ≠ some slashC := hhead y (List.mem_cons_self y ys)
    have hhead' : ∀ z ∈ ys, z.head? ≠ some slashC :=
      fun z hz => hhead z (List.mem_cons_of_mem y hz)
    have hstep : pathJoinL a (y :: ys) = pathJoinL (joinStep a y) ys := rfl
    by_cases hb : a.getLast? = some slashC
    · have hjs : joinStep a y = a ++ y := by
        unfold joinStep
        rw [if_neg hy, if_pos (Or.inr hb)]
      rcases List.eq_nil_or_concat y with hynil | _
      · subst hynil
        rw [hstep, hjs, List.append_nil,
            pathJoinL_glue ys a ha hhead']
        simp [glueL, glueNext, hb]
      · have hyne : y ≠ [] := by
          rename_i hc
          obtain ⟨l2, b2, rfl⟩ := hc
          simp
        rw [hstep, hjs, pathJoinL_glue ys (a ++ y)
              (fun h0 => hyne (List.append_eq_nil.mp h0).2) hhead',
            List.getLast?_append_of_ne_nil a hyne]
        simp only [decide_eq_true_eq, hb, decide_True]
        show a ++ y ++ glueL (decide (y.getLast? = some slashC)) ys
            = a ++ glueL true (y :: ys)
        rw [List.append_assoc]
        congr 1
        simp [glueL, glueNext, hyne]
    · have hjs : joinStep a y = a ++ slashC :: y := by
        unfold joinStep
        rw [if_neg hy, if_neg ?none]
        case none =>
          rintro (h0 | h0)
          · exact ha h0
          · exact hb h0
      have hne2 : slashC :: y ≠ [] := by simp
      rw [hstep, hjs, pathJoinL_glue ys (a ++ slashC :: y)
            (fun h0 => hne2 (List.append_eq_nil.mp h0).2) hhead',
          List.getLast?_append_of_ne_nil a hne2]
      simp only [hb, decide_False]
      show a ++ slashC :: y ++ glueL (decide ((slashC :: y).getLast? = some slashC)) ys
          = a ++ glueL false (y :: ys)
      rw [List.append_assoc]
      congr 1
      rcases List.eq_nil_or_concat y with hynil | hc
      · subst hynil
        simp [glueL, glueNext]
      · have hyne : y ≠ [] := by
          obtain ⟨l2, b2, rfl⟩ := hc
          simp
        have hlast : (slashC :: y).getLast? = y.getLast? := by
          show ([slashC] ++ y).getLast? = y.getLast?
          exact List.getLast?_append_of_ne_nil [slashC] hyne
        rw [hlast]
        simp [glueL, glueNext, hyne]

/-- Every piece fed to the join by `_request` has a slash-free head. -/
lemma head_segPiece (s : Seg) : (segPiece s).head? ≠ some slashC :=
  head_stripSlashesL (pyStr s).data

/-- The constructed URL decomposes as the host followed by the `glueL`
tail of the stripped, stringified segments (with the prefix prepended
when the first segment does not already start with it). -/
lemma buildUrlL_glue (s0 : String) (rest : List Seg) :
    buildUrlL s0 rest
      = ENDPOINT_HOST.data ++ glueL false ((prefixedSegs s0 rest).map segPiece) := by
  unfold buildUrlL
  have h := pathJoinL_glue ((prefixedSegs s0 rest).map segPiece) ENDPOINT_HOST.data
      (by decide) ?hhead
  case hhead =>
    intro y hy
    obtain ⟨s, _, rfl⟩ := List.mem_map.mp hy
    exact head_segPiece s
  rw [h]
  congr 1

/-- A URL containing no question mark has an empty query component. -/
lemma urlQueryL_eq_nil {u : List Char} (hq : qmarkC ∉ u) : urlQueryL u = [] := by
  have h2 : (u.takeWhile (· ≠ hashC)).dropWhile (· ≠ qmarkC) = [] := by
    rw [List.dropWhile_eq_nil_iff]
    intro x hx
    have hxu : x ∈ u := (List.takeWhile_prefix _).subset hx
    simp only [decide_eq_true_eq]
    intro h0
    exact hq (h0 ▸ hxu)
  unfold urlQueryL
  rw [h2]

/-- When the first segment does not start with the prefix, the URL is the
host followed by exactly one prepended copy of the prefix followed by the
joined caller segments. -/
lemma buildUrlL_no_pre (s0 : String) (rest : List Seg)
    (h : ENDPOINT_PATH.data.isPrefixOf s0.data = false) :
    buildUrlL s0 rest
      = (ENDPOINT_HOST ++ ENDPOINT_PATH).data
          ++ glueL false ((Seg.str s0 :: rest).map segPiece) := by
  rw [buildUrlL_glue]
  unfold prefixedSegs
  simp only [h, Bool.false_eq_true, if_false, List.map_cons]
  rw [show glueL false (segPiece (Seg.str ENDPOINT_PATH)
        :: segPiece (Seg.str s0) :: rest.map segPiece)
      = (slashC :: segPiece (Seg.str ENDPOINT_PATH))
        ++ glueL false (segPiece (Seg.str s0) :: rest.map segPiece) from rfl]
  rw [← List.append_assoc]
  congr 1

/-- When the first segment already starts with the prefix, nothing is
prepended: the URL is the host followed by the joined caller segments. -/
lemma buildUrlL_pre (s0 : String) (rest : List Seg)
    (h : ENDPOINT_PATH.data.isPrefixOf s0.data = true) :
    buildUrlL s0 rest
      = ENDPOINT_HOST.data ++ glueL false ((Seg.str s0 :: rest).map segPiece) := by
  rw [buildUrlL_glue]
  unfold prefixedSegs
  simp only [h, if_true]

/-- Occurrence count of the prefix in a URL built with the prepended
prefix: one plus whatever the caller's joined segments contribute. -/
lemma countSubstrL_buildUrl_no_pre (s0 : String) (rest : List Seg)
    (h : ENDPOINT_PATH.data.isPrefixOf s0.data = false) :
    countSubstrL (buildUrlL s0 rest) ENDPOINT_PATH.data
      = 1 + countSubstrL (glueL false ((Seg.str s0 :: rest).map segPiece))
              ENDPOINT_PATH.data := by
  rw [buildUrlL_no_pre s0 rest h]
  rw [countSubstrL_append _ _ _ (by decide) (by decide)]
  congr 1

/-- Occurrence count of the prefix in a URL built without prepending: the
host contributes none, so the count is that of the joined segments. -/
lemma countSubstrL_buildUrl_pre (s0 : String) (rest : List Seg)
    (h : ENDPOINT_PATH.data.isPrefixOf s0.data = true) :
    countSubstrL (buildUrlL s0 rest) ENDPOINT_PATH.data
      = countSubstrL (glueL false ((Seg.str s0 :: rest).map segPiece))
          ENDPOINT_PATH.data := by
  rw [buildUrlL_pre s0 rest h]
  rw [countSubstrL_append _ _ _ (by decide) (by decide)]
  rw [show countSubstrL ENDPOINT_HOST.data ENDPOINT_PATH.data = 0 from by decide,
    Nat.zero_add]

/-- The request `_request` hands to the transport, in closed form. -/
def mkReq (cfg : Config) (m : String) (d : Option Json) (s0 : String)
    (rest : List Seg) : DispatchedRequest :=
  ⟨m, String.mk (buildUrlL s0 rest)
      ++ (if urlQueryL (buildUrlL s0 rest) = [] then "?" else "&")
      ++ ("token=") ++ cfg.api_key, jsonHeaders,
    jsonDumps (d.getD Json.null)⟩

/-- With a string first segment, `_request` always dispatches exactly one
request, the one described by `mkReq`. -/
lemma request_sent_eq (cfg : Config) (m : String) (d : Option Json)
    (s0 : String) (rest : List Seg) (tr : List Response) :
    (_request cfg m d (Seg.str s0 :: rest) tr).sent = [mkReq cfg m d s0 rest] := by
  cases tr with
  | nil => rfl
  | cons r trRest =>
    unfold _request mkReq
    dsimp only
    split_ifs <;> rfl

/-- A 204 response makes `_request` return the empty dict. -/
lemma request_result_204 (cfg : Config) (m : String) (d : Option Json)
    (s0 : String) (rest : List Seg) (r : Response) (tr : List Response)
    (h204 : r.status_code = 204) :
    (_request cfg m d (Seg.str s0 :: rest) (r :: tr)).result
      = .ok RequestResult.emptyMap := by
  unfold _request
  dsimp only
  simp [h204]

/-- A 204 response leaves the rest of the transport intact. -/
lemma request_remaining (cfg : Config) (m : String) (d : Option Json)
    (s0 : String) (rest : List Seg) (r : Response) (tr : List Response) :
    (_request cfg m d (Seg.str s0 :: rest) (r :: tr)).remaining = tr := by
  unfold _request
  dsimp only
  split_ifs <;> rfl

/-- On a 200 response, `_request` consumes it, dispatches one request,
logs nothing and returns the raw response. -/
lemma request_eval_200 (cfg : Config) (m : String) (d : Option Json)
    (s0 : String) (rest : List Seg) (r : Response) (tr : List Response)
    (h : r.status_code = 200) :
    _request cfg m d (Seg.str s0 :: rest) (r :: tr)
      = ⟨.ok (.resp r), [mkReq cfg m d s0 rest], [], tr⟩ := by
  unfold _request mkReq
  dsimp only
  simp [h]

/-! Claim theorems. -/

/-- C5: for every constructed URL the API key is appended as a query
parameter, with separator `?token=` when the URL has no existing query
component (empty `urlparse` query) and `&token=` when it has one; a URL
containing no question mark never has a query component. -/
theorem c5_token_separator (cfg : Config) (m : String) (d : Option Json)
    (s0 : String) (rest : List Seg) (tr : List Response) :
    (_request cfg m d (Seg.str s0 :: rest) tr).sent
      = [⟨m, String.mk (buildUrlL s0 rest)
            ++ (if urlQueryL (buildUrlL s0 rest) = [] then "?" else "&")
            ++ ("token=") ++ cfg.api_key, jsonHeaders,
          jsonDumps (d.getD Json.null)⟩]
    ∧ (∀ u : List Char, qmarkC ∉ u → urlQueryL u = []) := by
  refine ⟨?_, fun u hu => urlQueryL_eq_nil hu⟩
  rw [request_sent_eq]
  rfl

/-- Witness for C5: a concrete call with no query in the joined URL gets
`?token=`, and a query-free character list has an empty query component. -/
theorem c5_token_separator_witness :
    (_request ⟨"KEY", []⟩ ("get") none [Seg.str ("milestones")] []).sent
      = [⟨("get"), ("https://api.clubhouse.io/api/v3/milestones?token=KEY"),
          jsonHeaders, ("null")⟩]
    ∧ urlQueryL (String.data ("abc")) = [] := by
  have h := c5_token_separator ⟨"KEY", []⟩ ("get") none ("milestones") [] []
  refine ⟨?_, h.2 (String.data ("abc")) (by decide)⟩
  rw [h.1]
  rfl

/-- C6: a dispatched request whose response has status exactly 204 makes
the dispatch operation return the empty mapping, regardless of the
response body content; `_request` contains no body-decoding step, so
none is attempted. -/
theorem c6_no_content (cfg : Config) (m : String) (d : Option Json)
    (s0 : String) (rest : List Seg) (r : Response) (tr : List Response)
    (h204 : r.status_code = 204) :
    (_request cfg m d (Seg.str s0 :: rest) (r :: tr)).result
      = .ok RequestResult.emptyMap :=
  request_result_204 cfg m d s0 rest r tr h204

/-- Witness for C6 at a concrete 204 response carrying a non-empty,
undecodable body. -/
theorem c6_no_content_witness :
    (_request ⟨"KEY", []⟩ ("get") none [Seg.str ("milestones")]
        [⟨204, ("garbage"), none, none⟩]).result = .ok RequestResult.emptyMap :=
  c6_no_content ⟨"KEY", []⟩ ("get") none ("milestones") []
    ⟨204, ("garbage"), none, none⟩ [] rfl

/-- C7: the delete helper issues a DELETE with no payload (its body is
the serialized `None`, `null`) and returns the raw dispatch result
unchanged; in particular `delete_milestone 123` against a server
responding 204 returns the empty mapping. -/
theorem c7_delete_raw :
    (∀ (cfg : Config) (segments : List Seg) (tr : List Response),
        _delete_item cfg segments tr = _request cfg ("delete") none segments tr)
    ∧ (delete_milestone ⟨"KEY", []⟩ (Seg.num 123) [⟨204, "", none, none⟩]).result
        = .ok RequestResult.emptyMap
    ∧ (delete_milestone ⟨"KEY", []⟩ (Seg.num 123)
        [⟨204, "", none, none⟩]).sent.map DispatchedRequest.method = [("delete")]
    ∧ (delete_milestone ⟨"KEY", []⟩ (Seg.num 123)
        [⟨204, "", none, none⟩]).sent.map DispatchedRequest.body = [("null")] :=
  ⟨fun _ _ _ => rfl, rfl, rfl, rfl⟩

/-- C9: every dispatched request carries as body the JSON serialization
of the payload — the serialization of `null` when no payload is given, so
a JSON body is always present — and the content-type header is always
application/json. -/
theorem c9_body_and_headers (cfg : Config) (m : String) (d : Option Json)
    (s0 : String) (rest : List Seg) (tr : List Response) :
    (_request cfg m d (Seg.str s0 :: rest) tr).sent.map DispatchedRequest.body
        = [jsonDumps (d.getD Json.null)]
    ∧ (_request cfg m d (Seg.str s0 :: rest) tr).sent.map DispatchedRequest.headers
        = [[(("Content-Type"), ("application/json"))]]
    ∧ jsonDumps ((none : Option Json).getD Json.null) = ("null") := by
  refine ⟨?_, ?_, rfl⟩ <;> rw [request_sent_eq] <;> rfl

/-- C1 (amended): error classification of `_request`.  A status of at
most 299 raises nothing and logs nothing, regardless of the ignore set; a
status above 299 that is in the ignore set raises nothing and logs
nothing; a status above 299 outside the ignore set logs the status and
body, raises the HTTP failure carrying exactly that status and body when
the status is moreover in `[400, 600)` — the range where
`raise_for_status` raises — and for any other status (3xx, or 600 and
above) raises nothing and returns the raw response. -/
theorem c1_error_classification (cfg : Config) (m : String) (d : Option Json)
    (s0 : String) (rest : List Seg) (r : Response) (tr : List Response) :
    (r.status_code ≤ 299 →
      (_request cfg m d (Seg.str s0 :: rest) (r :: tr)).result
        = .ok (if r.status_code = 204 then RequestResult.emptyMap else .resp r)
      ∧ (_request cfg m d (Seg.str s0 :: rest) (r :: tr)).logs = [])
    ∧ (299 < r.status_code → r.status_code ∈ cfg.ignored_status_codes →
      (_request cfg m d (Seg.str s0 :: rest) (r :: tr)).result = .ok (.resp r)
      ∧ (_request cfg m d (Seg.str s0 :: rest) (r :: tr)).logs = [])
    ∧ (299 < r.status_code → r.status_code ∉ cfg.ignored_status_codes →
      (_request cfg m d (Seg.str s0 :: rest) (r :: tr)).logs = [logLine r]
      ∧ (400 ≤ r.status_code → r.status_code < 600 →
          (_request cfg m d (Seg.str s0 :: rest) (r :: tr)).result
            = .error (.httpError r.status_code r.text))
      ∧ (r.status_code < 400 ∨ 600 ≤ r.status_code →
          (_request cfg m d (Seg.str s0 :: rest) (r :: tr)).result
            = .ok (.resp r))) := by
  unfold _request
  dsimp only
  refine ⟨fun hle => ?_, fun hgt hin => ?_, fun hgt hnin => ?_⟩
  · have h1 : decide (299 < r.status_code) = false := by
      simp [Nat.not_lt.mpr hle]
    rw [h1]
    simp only [Bool.false_and, Bool.false_eq_true, if_false]
    by_cases h204 : r.status_code = 204 <;> simp [h204]
  · have h1 : decide (r.status_code ∈ cfg.ignored_status_codes) = true := by
      simpa using hin
    have h204 : ¬ r.status_code = 204 := by omega
    rw [h1]
    simp [h204]
  · have h1 : decide (299 < r.status_code) = true := by simpa using hgt
    have h2 : decide (r.status_code ∈ cfg.ignored_status_codes) = false := by
      simpa using hnin
    have h204 : ¬ r.status_code = 204 := by omega
    rw [h1, h2]
    refine ⟨?_, fun h400 h600 => ?_, fun hout => ?_⟩
    · simp only [Bool.not_false, Bool.and_true, Bool.true_and]
      split_ifs <;> rfl
    · have h3 : raiseForStatusRaises r.status_code = true := by
        unfold raiseForStatusRaises
        simp [h400, h600]
      simp [h3]
    · have h3 : raiseForStatusRaises r.status_code = false := by
        unfold raiseForStatusRaises
        rcases hout with h4 | h4 <;> simp <;> omega
      simp [h3, h204]

/-- Witness for the amended C1 at a 404 with an empty ignore set: logged
and raised with exactly that status and body. -/
theorem c1_error_classification_witness :
    (_request ⟨"KEY", []⟩ ("get") none [Seg.str ("milestones")]
        [⟨404, ("nf"), none, none⟩]).logs = [logLine ⟨404, ("nf"), none, none⟩]
    ∧ (_request ⟨"KEY", []⟩ ("get") none [Seg.str ("milestones")]
        [⟨404, ("nf"), none, none⟩]).result = .error (.httpError 404 ("nf")) := by
  have h := (c1_error_classification ⟨"KEY", []⟩ ("get") none ("milestones") []
      ⟨404, ("nf"), none, none⟩ []).2.2 (by decide) (by simp)
  exact ⟨h.1, h.2.1 (by decide) (by decide)⟩

/-- C1 (counterexample): a 304 response with an empty ignore set has a
status above 299 that is not ignored, so the claim requires an HTTP
failure to be raised; the code logs the status and body but raises
nothing, because `raise_for_status` does not raise for 3xx — the raw
response is returned. -/
theorem c1_counterexample :
    (_request ⟨"KEY", []⟩ ("get") none [Seg.str ("milestones")]
        [⟨304, ("moved"), none, none⟩]).result
      = .ok (.resp ⟨304, ("moved"), none, none⟩)
    ∧ (_request ⟨"KEY", []⟩ ("get") none [Seg.str ("milestones")]
        [⟨304, ("moved"), none, none⟩]).logs
      = [("Status code: 304, Content: moved")] :=
  ⟨rfl, rfl⟩

/-- C10: on a 204 response the create, get, update and list operations
all fail — the empty mapping returned by dispatch supports neither
`.json()` nor `.next`, so Python raises `AttributeError` — while the
delete helper alone propagates the empty mapping to its caller. -/
theorem c10_204_breaks_decoders (cfg : Config) (d : Json) (s0 : String)
    (rest : List Seg) (r : Response) (tr : List Response)
    (h204 : r.status_code = 204) :
    (_create_item cfg d (Seg.str s0 :: rest) (r :: tr)).result
        = .error (.attributeError ("json"))
    ∧ (_get_item cfg (Seg.str s0 :: rest) (r :: tr)).result
        = .error (.attributeError ("json"))
    ∧ (_update_item cfg d (Seg.str s0 :: rest) (r :: tr)).result
        = .error (.attributeError ("json"))
    ∧ (_list_items cfg (Seg.str s0 :: rest) (r :: tr)).result
        = .error (.attributeError ("json"))
    ∧ (_delete_item cfg (Seg.str s0 :: rest) (r :: tr)).result
        = .ok RequestResult.emptyMap := by
  refine ⟨?_, ?_, ?_, ?_, ?_⟩
  · simp only [_create_item]
    rw [request_result_204 cfg ("post") (some d) s0 rest r tr h204]
    rfl
  · simp only [_get_item]
    rw [request_result_204 cfg ("get") none s0 rest r tr h204]
    rfl
  · simp only [_update_item]
    rw [request_result_204 cfg ("put") (some d) s0 rest r tr h204]
    rfl
  · simp only [_list_items]
    rw [request_result_204 cfg ("get") none s0 rest r tr h204]
    rfl
  · exact request_result_204 cfg ("delete") none s0 rest r tr h204

/-- Witness for C10 at a concrete 204 response. -/
theorem c10_204_breaks_decoders_witness :
    (_create_item ⟨"KEY", []⟩ Json.null [Seg.str ("milestones")]
        [⟨204, "", none, none⟩]).result = .error (.attributeError ("json"))
    ∧ (_delete_item ⟨"KEY", []⟩ [Seg.str ("milestones")]
        [⟨204, "", none, none⟩]).result = .ok RequestResult.emptyMap := by
  have h := c10_204_breaks_decoders ⟨"KEY", []⟩ Json.null ("milestones") []
    ⟨204, "", none, none⟩ [] rfl
  exact ⟨h.1, h.2.2.2.2⟩

/-- C2 (code evaluation at the failing input): the variadic verb `get`
binds its first segment to the `data` parameter of `_request`.  With
segments `["milestones", "123"]` the dispatched URL drops `milestones`
from the path and the body is the JSON string `"milestones"`; with a
single segment the call raises `IndexError`; with a numeric second
segment the shifted first path segment is the integer and
`segments[0].startswith` raises `AttributeError`. -/
theorem c2_verb_payload_shift :
    (ClubhouseClient.get ⟨"KEY", []⟩ [Seg.str ("milestones"), Seg.str ("123")]
        [⟨200, "", some (.arr []), none⟩]).sent.map DispatchedRequest.url
      = [("https://api.clubhouse.io/api/v3/123?token=KEY")]
    ∧ (ClubhouseClient.get ⟨"KEY", []⟩ [Seg.str ("milestones"), Seg.str ("123")]
        [⟨200, "", some (.arr []), none⟩]).sent.map DispatchedRequest.body
      = [("\"milestones\"")]
    ∧ (ClubhouseClient.get ⟨"KEY", []⟩ [Seg.str ("milestones")]
        [⟨200, "", some (.arr []), none⟩]).result = .error ClientError.indexError
    ∧ (ClubhouseClient.get ⟨"KEY", []⟩ [Seg.str ("milestones"), Seg.num 123]
        [⟨200, "", some (.arr []), none⟩]).result
      = .error (.attributeError ("startswith")) :=
  ⟨rfl, rfl, rfl, rfl⟩

/-- C3: for a list operation whose first response carries the items `A`
and a (truthy) next-cursor and whose second response carries the items
`B` and no next-cursor, the operation returns exactly the items `A ++ B`
in page order, issues exactly two underlying HTTP calls, and consumes
exactly those two responses from the transport. -/
theorem c3_list_pagination (cfg : Config) (s0 : String) (rest : List Seg)
    (A B : List Json) (c t1 t2 : String) (trRest : List Response) (hc : c ≠ "") :
    (_list_items cfg (Seg.str s0 :: rest)
        (⟨200, t1, some (.arr A), some c⟩
          :: ⟨200, t2, some (.arr B), none⟩ :: trRest)).result
      = .ok (.arr (A ++ B))
    ∧ (_list_items cfg (Seg.str s0 :: rest)
        (⟨200, t1, some (.arr A), some c⟩
          :: ⟨200, t2, some (.arr B), none⟩ :: trRest)).sent.length = 2
    ∧ (_list_items cfg (Seg.str s0 :: rest)
        (⟨200, t1, some (.arr A), some c⟩
          :: ⟨200, t2, some (.arr B), none⟩ :: trRest)).remaining = trRest := by
  have h1 := request_eval_200 cfg ("get") none s0 rest
      ⟨200, t1, some (.arr A), some c⟩ (⟨200, t2, some (.arr B), none⟩ :: trRest) rfl
  have h2 := request_eval_200 cfg ("get") none c []
      ⟨200, t2, some (.arr B), none⟩ trRest rfl
  simp only [_list_items, h1, resultJson, List.length_cons, listLoop, resultNext, hc,
    if_false, h2, pyExtend]
  simp

/-- Witness for C3: a concrete two-page listing of one item each. -/
theorem c3_list_pagination_witness :
    (_list_items ⟨"KEY", []⟩ [Seg.str ("milestones")]
        [⟨200, "", some (.arr [Json.num 1]), some ("/api/v3/milestones?page=2")⟩,
         ⟨200, "", some (.arr [Json.num 2]), none⟩]).result
      = .ok (.arr [Json.num 1, Json.num 2])
    ∧ (_list_items ⟨"KEY", []⟩ [Seg.str ("milestones")]
        [⟨200, "", some (.arr [Json.num 1]), some ("/api/v3/milestones?page=2")⟩,
         ⟨200, "", some (.arr [Json.num 2]), none⟩]).sent.length = 2
    ∧ (_list_items ⟨"KEY", []⟩ [Seg.str ("milestones")]
        [⟨200, "", some (.arr [Json.num 1]), some ("/api/v3/milestones?page=2")⟩,
         ⟨200, "", some (.arr [Json.num 2]), none⟩]).remaining = [] :=
  c3_list_pagination ⟨"KEY", []⟩ ("milestones") [] [Json.num 1] [Json.num 2]
    ("/api/v3/milestones?page=2") "" "" [] (by decide)

/-- C4 (amended): when the first segment (a string) does not start with
the fixed prefix, the constructed URL is the host followed by exactly one
prepended copy of the prefix followed by the slash-joined stripped caller
segments, and it contains exactly one occurrence of the prefix whenever
the joined caller segments contain none (occurrences inside the caller's
own segments add further copies — see the counterexample); when the first
segment already starts with the prefix, nothing is prepended and the
URL's prefix occurrences are exactly those of the joined segments. -/
theorem c4_prefix_occurrences (s0 : String) (rest : List Seg) :
    (ENDPOINT_PATH.data.isPrefixOf s0.data = false →
      buildUrlL s0 rest
        = (ENDPOINT_HOST ++ ENDPOINT_PATH).data
            ++ glueL false ((Seg.str s0 :: rest).map segPiece)
      ∧ (countSubstrL (glueL false ((Seg.str s0 :: rest).map segPiece))
            ENDPOINT_PATH.data = 0 →
          countSubstrL (buildUrlL s0 rest) ENDPOINT_PATH.data = 1))
    ∧ (ENDPOINT_PATH.data.isPrefixOf s0.data = true →
      buildUrlL s0 rest
        = ENDPOINT_HOST.data ++ glueL false ((Seg.str s0 :: rest).map segPiece)
      ∧ countSubstrL (buildUrlL s0 rest) ENDPOINT_PATH.data
          = countSubstrL (glueL false ((Seg.str s0 :: rest).map segPiece))
              ENDPOINT_PATH.data) := by
  constructor
  · intro h
    refine ⟨buildUrlL_no_pre s0 rest h, fun h0 => ?_⟩
    rw [countSubstrL_buildUrl_no_pre s0 rest h, h0]
  · intro h
    exact ⟨buildUrlL_pre s0 rest h, countSubstrL_buildUrl_pre s0 rest h⟩

/-- Witness for the amended C4: the URL for `["milestones", 123]`
contains exactly one occurrence of the prefix. -/
theorem c4_prefix_occurrences_witness :
    countSubstrL (buildUrlL ("milestones") [Seg.num 123]) ENDPOINT_PATH.data = 1 :=
  ((c4_prefix_occurrences ("milestones") [Seg.num 123]).1 (by decide)).2 (by decide)

/-- C4 (counterexample): the single segment `api/v3/milestones` does not
start with the prefix `/api/v3` (no leading slash), so the claim requires
the constructed URL to contain exactly one copy of the prefix; the code
prepends the prefix and the URL
`https://api.clubhouse.io/api/v3/api/v3/milestones` contains two. -/
theorem c4_counterexample :
    ENDPOINT_PATH.data.isPrefixOf (String.data ("api/v3/milestones")) = false
    ∧ countSubstrL (buildUrlL ("api/v3/milestones") []) ENDPOINT_PATH.data = 2 :=
  ⟨by decide, by decide⟩

/-- C8 (amended): for every non-empty path-segment sequence whose first
segment is a string, URL construction stringifies each segment (numeric
identifiers are allowed in any later position), strips its leading and
trailing slashes, and joins host, prefix and all segments with single
slashes; the dispatched request's URL is that join followed by the token
parameter. -/
theorem c8_url_construction (cfg : Config) (m : String) (d : Option Json)
    (s0 : String) (rest : List Seg) (tr : List Response) :
    buildUrlL s0 rest
      = ENDPOINT_HOST.data ++ glueL false ((prefixedSegs s0 rest).map segPiece)
    ∧ (_request cfg m d (Seg.str s0 :: rest) tr).sent.map DispatchedRequest.url
      = [String.mk (buildUrlL s0 rest)
          ++ (if urlQueryL (buildUrlL s0 rest) = [] then "?" else "&")
          ++ ("token=") ++ cfg.api_key] := by
  refine ⟨buildUrlL_glue s0 rest, ?_⟩
  rw [request_sent_eq]
  rfl

/-- C8 (counterexample): a numeric first segment (any non-string) makes
`_request` raise `AttributeError` at `segments[0].startswith(...)`
before any URL is constructed — no request is dispatched — although the
claim requires the segment to be stringified and joined. -/
theorem c8_counterexample :
    (_request ⟨"KEY", []⟩ ("get") none [Seg.num 123, Seg.str ("epics")]
        [⟨200, "", some (.arr []), none⟩]).result
      = .error (.attributeError ("startswith"))
    ∧ (_request ⟨"KEY", []⟩ ("get") none [Seg.num 123, Seg.str ("epics")]
        [⟨200, "", some (.arr []), none⟩]).sent = [] :=
  ⟨rfl, rfl⟩
